import Mathlib

/-
Verification of the h2c-smuggling probe (h2csmuggler.py) against its design
specification.  Bytes are modelled as natural numbers (the values that occur
are all < 256); byte strings as `List Nat`.  Network reads are modelled as a
finite list of read outcomes supplied by the environment: each read either
delivers a chunk of bytes or raises the socket timeout.
-/

namespace H2CS

/-- ASCII bytes of a string literal (every constant used here is ASCII). -/
def strB (s : String) : List Nat := s.data.map Char.toNat

/-- The CRLF line terminator. -/
def crlf : List Nat := [13, 10]

/-- The end-of-headers marker searched for by the upgrade-response read loop. -/
def crlfcrlf : List Nat := [13, 10, 13, 10]

/-- Decides whether `sep` is an initial segment of `xs`. -/
def startsWith : List Nat → List Nat → Bool
  | [], _ => true
  | _ :: _, [] => false
  | a :: as, b :: bs => a == b && startsWith as bs

/-- Decides whether `sep` occurs as a contiguous subsequence of `xs`
(Python's `sep in data`). -/
def containsSeq (sep : List Nat) : List Nat → Bool
  | [] => sep.isEmpty
  | x :: xs => startsWith sep (x :: xs) || containsSeq sep xs

/-- Splits `xs` at the first occurrence of `sep`
(Python's `data.split(sep, 1)` when `sep` occurs). -/
def splitOnceAt (sep : List Nat) : List Nat → Option (List Nat × List Nat)
  | [] => if sep.isEmpty then some ([], []) else none
  | x :: xs =>
    if startsWith sep (x :: xs) then some ([], (x :: xs).drop sep.length)
    else
      match splitOnceAt sep xs with
      | some (a, b) => some (x :: a, b)
      | none => none

/-- ASCII whitespace bytes recognised by Python's argumentless `bytes.split`. -/
def isWsByte (c : Nat) : Bool :=
  c == 32 || c == 9 || c == 10 || c == 13 || c == 11 || c == 12

/-- Worker for `pySplitWs`; `cur` holds the current word reversed. -/
def wordsAux : List Nat → List Nat → List (List Nat)
  | [], cur => if cur.isEmpty then [] else [cur.reverse]
  | c :: cs, cur =>
    if isWsByte c then
      if cur.isEmpty then wordsAux cs [] else cur.reverse :: wordsAux cs []
    else wordsAux cs (c :: cur)

/-- Python's `bytes.split()` with no argument: split on runs of ASCII
whitespace, discarding empty words. -/
def pySplitWs (xs : List Nat) : List (List Nat) := wordsAux xs []

theorem startsWith_iff (sep xs : List Nat) :
    startsWith sep xs = true ↔ ∃ t, xs = sep ++ t := by
  induction sep generalizing xs with
  | nil => simp [startsWith]
  | cons a as ih =>
    cases xs with
    | nil => simp [startsWith]
    | cons b bs =>
      simp only [startsWith, Bool.and_eq_true, beq_iff_eq, ih bs]
      constructor
      · rintro ⟨rfl, t, rfl⟩; exact ⟨t, rfl⟩
      · rintro ⟨t, h⟩
        cases h
        exact ⟨rfl, t, rfl⟩

theorem splitOnceAt_append (sep : List Nat) (xs a b : List Nat)
    (h : splitOnceAt sep xs = some (a, b)) : xs = a ++ sep ++ b := by
  induction xs generalizing a b with
  | nil =>
    by_cases hs : sep.isEmpty <;> simp [splitOnceAt, hs] at h
    rcases h with ⟨rfl, rfl⟩
    simp [List.isEmpty_iff.mp hs]
  | cons x xs ih =>
    by_cases hp : startsWith sep (x :: xs) = true
    · simp only [splitOnceAt, hp, if_true, Option.some.injEq, Prod.mk.injEq] at h
      rcases h with ⟨rfl, rfl⟩
      rcases (startsWith_iff sep (x :: xs)).mp hp with ⟨t, ht⟩
      simp [ht, List.drop_left]
    · simp only [splitOnceAt, hp, if_false] at h
      cases hrec : splitOnceAt sep xs with
      | none => simp [hrec] at h
      | some ab =>
        obtain ⟨a0, b0⟩ := ab
        simp only [hrec, Option.some.injEq, Prod.mk.injEq] at h
        rcases h with ⟨rfl, rfl⟩
        simp [ih a0 b hrec]

theorem splitOnceAt_firstOcc (sep : List Nat) (xs a b : List Nat)
    (h : splitOnceAt sep xs = some (a, b)) :
    ∀ p, p < a.length → startsWith sep (xs.drop p) = false := by
  induction xs generalizing a b with
  | nil =>
    by_cases hs : sep.isEmpty <;> simp [splitOnceAt, hs] at h
    rcases h with ⟨rfl, rfl⟩
    simp
  | cons x xs ih =>
    by_cases hp : startsWith sep (x :: xs) = true
    · simp only [splitOnceAt, hp, if_true, Option.some.injEq, Prod.mk.injEq] at h
      rcases h with ⟨rfl, rfl⟩
      simp
    · simp only [splitOnceAt, hp, if_false] at h
      cases hrec : splitOnceAt sep xs with
      | none => simp [hrec] at h
      | some ab =>
        obtain ⟨a0, b0⟩ := ab
        simp only [hrec, Option.some.injEq, Prod.mk.injEq] at h
        rcases h with ⟨rfl, rfl⟩
        intro p hplt
        cases p with
        | zero => simpa using Bool.eq_false_iff.mpr hp
        | succ q =>
          simp only [List.length_cons, Nat.succ_lt_succ_iff] at hplt
          simpa using ih a0 b hrec q hplt

/-- Outcome of one `connection.recv(8192)` call: a delivered chunk (possibly
empty, as happens after the peer closed the connection), or the socket
timeout exception. -/
inductive RecvStep where
  | chunk (bs : List Nat)
  | tmo
deriving DecidableEq, Repr

/-- Result of the header-accumulation loop of `get_upgrade_response`
(`while b'\x0d\x0a\x0d\x0a' not in data: data += connection.recv(8192)`):
either the terminator was found in the accumulated data, or a read timed out
(the exception propagates), or the supplied read budget was exhausted with
the loop still running. -/
inductive GUAcc where
  | found (data : List Nat)
  | timedOut
  | ranOut
deriving DecidableEq, Repr

/-- The read loop of `get_upgrade_response`, lines 80-82 of h2csmuggler.py. -/
def guAccum (steps : List RecvStep) (data : List Nat) : GUAcc :=
  if containsSeq crlfcrlf data then GUAcc.found data
  else
    match steps with
    | [] => GUAcc.ranOut
    | RecvStep.chunk bs :: rest => guAccum rest (data ++ bs)
    | RecvStep.tmo :: _ => GUAcc.timedOut

/-- Result of `get_upgrade_response`: `success rest` is the return
`(rest, True)`, `failure` the return `(None, False)` after the
`[INFO] Failed to upgrade` print, `indexError` the uncaught `IndexError`
raised by `split_headers[1]` when the headers hold fewer than two
whitespace-separated tokens, `timedOut` the propagated `socket.timeout`,
and `ranOut` an exhausted read budget (the loop still running). -/
inductive GUResult where
  | success (rest : List Nat)
  | failure
  | indexError
  | timedOut
  | ranOut
deriving DecidableEq, Repr

/-- ASCII bytes of the status token `101`. -/
def code101 : List Nat := [49, 48, 49]

/-- Lines 84-91 of h2csmuggler.py: split the accumulated bytes at the first
`\x0d\x0a\x0d\x0a`, split the header part on whitespace, and compare token 1
with `101`. -/
def processResponse (data : List Nat) : GUResult :=
  match splitOnceAt crlfcrlf data with
  | none => GUResult.ranOut
  | some (headers, rest) =>
    match (pySplitWs headers).get? 1 with
    | none => GUResult.indexError
    | some code => if code = code101 then GUResult.success rest else GUResult.failure

/-- `get_upgrade_response` (lines 79-91 of h2csmuggler.py) run against a
finite list of read outcomes. -/
def get_upgrade_response (steps : List RecvStep) : GUResult :=
  match guAccum steps [] with
  | GUAcc.found data => processResponse data
  | GUAcc.timedOut => GUResult.timedOut
  | GUAcc.ranOut => GUResult.ranOut

/-- The hard-coded base64 `HTTP2-Settings` header value of line 72. -/
def http2SettingsB64 : List Nat := strB ("AAMAAABkAARAAAAAAAIAAAAA")

/-- The upgrade request built by `send_initial_request`
(lines 58-76 of h2csmuggler.py), as the exact byte string passed to
`connection.sendall`.  `path` and `host` are the already-encoded
`proxy_url.path` and `proxy_url.hostname`; line 60 substitutes `/` for an
empty path. -/
def send_initial_request (path host : List Nat) (upgradeOnly : Bool) : List Nat :=
  let p := if path.isEmpty then strB ("/") else path
  let addlConnStr := if upgradeOnly then [] else strB (", HTTP2-Settings")
  strB ("GET ") ++ p ++ strB (" HTTP/1.1") ++ crlf ++
  strB ("Host: ") ++ host ++ crlf ++
  strB ("Accept: */*") ++ crlf ++
  strB ("Accept-Language: en") ++ crlf ++
  strB ("Upgrade: h2c") ++ crlf ++
  strB ("HTTP2-Settings: ") ++ http2SettingsB64 ++ crlf ++
  strB ("Connection: Upgrade") ++ addlConnStr ++ crlf ++
  crlf

/-- Value of one base64 alphabet character (RFC 4648 standard alphabet). -/
def b64Val (c : Nat) : Option Nat :=
  if 65 ≤ c ∧ c ≤ 90 then some (c - 65)
  else if 97 ≤ c ∧ c ≤ 122 then some (c - 97 + 26)
  else if 48 ≤ c ∧ c ≤ 57 then some (c - 48 + 52)
  else if c = 43 then some 62
  else if c = 47 then some 63
  else none

/-- Base64 decoding of a padding-free character string whose length is a
multiple of four. -/
def b64Decode : List Nat → Option (List Nat)
  | [] => some []
  | c1 :: c2 :: c3 :: c4 :: rest =>
    match b64Val c1, b64Val c2, b64Val c3, b64Val c4, b64Decode rest with
    | some v1, some v2, some v3, some v4, some tail =>
      let n := ((v1 * 64 + v2) * 64 + v3) * 64 + v4
      some ([n / 65536, n / 256 % 256, n % 256] ++ tail)
    | _, _, _, _, _ => none
  | _ => none

/-- Parses an HTTP/2 SETTINGS frame payload into (identifier, value) pairs:
each entry is a 16-bit identifier followed by a 32-bit big-endian value. -/
def parseSettings : List Nat → Option (List (Nat × Nat))
  | [] => some []
  | a :: b :: c :: d :: e :: f :: rest =>
    match parseSettings rest with
    | some tail => some ((a * 256 + b, ((c * 256 + d) * 256 + e) * 256 + f) :: tail)
    | none => none
  | _ => none

/-- RFC 7540 section 6.5.2 initial values of the settings parameters:
HEADER_TABLE_SIZE 4096, ENABLE_PUSH 1, INITIAL_WINDOW_SIZE 65535,
MAX_FRAME_SIZE 16384; MAX_CONCURRENT_STREAMS and MAX_HEADER_LIST_SIZE have
no fixed initial value. -/
def rfc7540Default (ident : Nat) : Option Nat :=
  if ident = 1 then some 4096
  else if ident = 2 then some 1
  else if ident = 4 then some 65535
  else if ident = 5 then some 16384
  else none

/-- The HTTP/2 events dispatched on in h2csmuggler.py: `ResponseReceived`,
`DataReceived`, `StreamReset`, `StreamEnded` from `h2.events`, and `other`
for every remaining event class (SETTINGS acknowledgements, window updates,
pings, ...), identified only by an opaque tag. -/
inductive H2Event where
  | responseReceived (headers : List (List Nat × List Nat)) (streamId : Nat)
  | dataReceived (data : List Nat) (streamId : Nat)
  | streamReset (errorCode : Nat) (streamId : Nat)
  | streamEnded (streamId : Nat)
  | other (tag : Nat)
deriving DecidableEq, Repr

/-- Whether an event is an `h2.events.StreamReset` instance. -/
def isReset : H2Event → Bool
  | H2Event.streamReset _ _ => true
  | _ => false

/-- The check of line 100: `len(events) > 0 and isinstance(events[-1], StreamEnded)`. -/
def lastIsEnded (evs : List H2Event) : Bool :=
  match evs.getLast? with
  | some (H2Event.streamEnded _) => true
  | _ => false

/-- Outcome of one `sock.recv(8192)` followed by
`h2_connection.receive_data(newdata)` inside `getData`: `none` is a read
that raises `socket.timeout`; `some (chunk, evs)` is a delivered chunk
together with the events the frame decoder produced from it. -/
abbrev GDStep : Type := Option (List Nat × List H2Event)

/-- Result of `getData`: `done evs feds byEnd rest` means the loop returned
`evs`, having fed the decoder the chunks `feds` in order; `byEnd` records
whether it stopped because the last event was `StreamEnded` (line 101) as
opposed to a read timing out; `rest` is the list of reads it never
performed.  `ranOut evs feds` means the supplied read budget was exhausted
with the loop still running. -/
inductive GDResult where
  | done (evs : List H2Event) (feds : List (List Nat)) (byEnd : Bool) (rest : List GDStep)
  | ranOut (evs : List H2Event) (feds : List (List Nat))

/-- The loop of `getData` (lines 96-103 of h2csmuggler.py). -/
def gdLoop : List GDStep → List H2Event → List (List Nat) → GDResult
  | [], evs, feds => GDResult.ranOut evs feds
  | none :: rest, evs, feds => GDResult.done evs feds false rest
  | some (chunk, newEvs) :: rest, evs, feds =>
    let evs' := evs ++ newEvs
    let feds' := feds ++ [chunk]
    if lastIsEnded evs' then GDResult.done evs' feds' true rest
    else gdLoop rest evs' feds'

/-- `getData` (lines 94-105 of h2csmuggler.py) run against a finite list of
read outcomes. -/
def getData (steps : List GDStep) : GDResult := gdLoop steps [] []

/-- One console output item of `handle_events`/`handle_response`:
a `name: value` header line, a blank line, a decoded data block, or a
verbose `[INFO]` line for an unrecognised event. -/
inductive Output where
  | headerOut (name value : List Nat)
  | blank
  | dataOut (bs : List Nat)
  | infoOut (e : H2Event)
deriving DecidableEq, Repr

/-- `handle_response` (lines 32-36 of h2csmuggler.py): one line per header
pair, then a blank line. -/
def handle_response (headers : List (List Nat × List Nat)) : List Output :=
  (headers.map fun nv => Output.headerOut nv.1 nv.2) ++ [Output.blank]

/-- `handle_events` (lines 18-29 of h2csmuggler.py): the outputs printed
before the function returned or raised, and the `RuntimeError` message when
a `StreamReset` event was hit.  A reset stops the iteration at once: events
after it contribute nothing. -/
def handle_events (events : List H2Event) (isVerbose : Bool) : List Output × Option String :=
  match events with
  | [] => ([], none)
  | e :: es =>
    match e with
    | H2Event.streamReset code _ =>
      ([], some (("stream reset: ") ++ Nat.repr code))
    | H2Event.responseReceived hs _ =>
      let r := handle_events es isVerbose
      (handle_response hs ++ r.1, r.2)
    | H2Event.dataReceived d _ =>
      let r := handle_events es isVerbose
      (Output.dataOut d :: Output.blank :: r.1, r.2)
    | H2Event.streamEnded sid =>
      let r := handle_events es isVerbose
      ((if isVerbose then [Output.infoOut (H2Event.streamEnded sid)] else []) ++ r.1, r.2)
    | H2Event.other tag =>
      let r := handle_events es isVerbose
      ((if isVerbose then [Output.infoOut (H2Event.other tag)] else []) ++ r.1, r.2)

/-- Modelled from the spec: the h2 library's connection object is not part
of this repository; per the spec's H2TunnelSession, the session holds "the
next-available stream ID counter (monotonically increasing, odd,
client-initiated)". -/
structure H2Session where
  nextStreamId : Nat
deriving DecidableEq, Repr

/-- Modelled from the spec: `openStream` "allocates the next odd stream ID
... and returns the allocated ID" (spec 4.3); this merges the h2 library's
`get_next_available_stream_id` with the allocation `send_headers` performs,
as `sendSmuggledRequest` always calls them back to back. -/
def openStream (s : H2Session) : Nat × H2Session :=
  (s.nextStreamId, ⟨s.nextStreamId + 2⟩)

/-- N sequential `openStream` calls, one per dispatched smuggled request. -/
def openStreams (s : H2Session) : Nat → List Nat × H2Session
  | 0 => ([], s)
  | n + 1 =>
    let r := openStream s
    let rs := openStreams r.2 n
    (r.1 :: rs.1, rs.2)

/-- Lines 152-160 of h2csmuggler.py, starting right after a successful
upgrade: `rest` is the leftover returned by `get_upgrade_response`;
`extraEvents` the events `h2_connection.receive_data(extra_data)` produced
from it (line 154); `steps` the subsequent socket reads.  Returns the chunks
fed to the frame decoder in order, the event list passed to `handle_events`
(line 160), and that call's result — or `none` when the drain loop never
finished within the read budget.  The binding of line 154 is overwritten by
line 156 before it is ever read. -/
def mainAfterUpgrade (rest : List Nat) (extraEvents : List H2Event)
    (steps : List GDStep) (isVerbose : Bool) :
    Option (List (List Nat) × List H2Event × (List Output × Option String)) :=
  match getData steps with
  | GDResult.done evs feds _ _ =>
    some (rest :: feds, evs, handle_events evs isVerbose)
  | GDResult.ranOut _ _ => none

/-- A teardown action performed on the socket. -/
inductive Act where
  | shutdown
  | close
deriving DecidableEq, Repr

/-- The socket teardown actions `main` (lines 128-196 of h2csmuggler.py)
performs after `establish_tcp_connection` succeeded, by exit path: a failed
upgrade runs `sys.exit(1)` (line 145) with no cleanup; test mode runs
`sys.exit(0)` (line 150) with no cleanup; an exception raised during the
exchanges (e.g. the `RuntimeError` of `handle_events`) propagates out of
`main` uncaught with no cleanup; only normal completion reaches the
`shutdown`/`close` pair of lines 195-196. -/
def mainCleanup (negOk test exchangeRaises : Bool) : List Act :=
  if ¬ negOk then []
  else if test then []
  else if exchangeRaises then []
  else [Act.shutdown, Act.close]

/-- The socket teardown actions `scan` (lines 199-226 of h2csmuggler.py)
performs: the `finally` block runs `shutdown` and `close` whenever
`connection` was assigned, i.e. whenever `establish_tcp_connection`
returned, on every path (invalid scheme returns before connecting; a
connect failure leaves `connection` as `None`). -/
def scanCleanup (validProto connectOk : Bool) : List Act :=
  if ¬ validProto then []
  else if ¬ connectOk then []
  else [Act.shutdown, Act.close]

/-- Upgrade response used as concrete test input: status 101, trailing
headers in scrambled casing, and leftover bytes after the blank line. -/
def c1data : List Nat :=
  strB ("HTTP/1.1 101 Switching Protocols\r\nsErVeR: test\r\nUpGrAdE: h2c\r\n\r\nPRI * SM")

/-- Header part of `c1data` (everything before the first blank line). -/
def c1headers : List Nat :=
  strB ("HTTP/1.1 101 Switching Protocols\r\nsErVeR: test\r\nUpGrAdE: h2c")

/-- Leftover part of `c1data` (everything after the first blank line). -/
def c1rest : List Nat := strB ("PRI * SM")

/-- Whitespace tokens of `c1headers` after the status code token. -/
def c1ts : List (List Nat) :=
  [strB ("Switching"), strB ("Protocols"), strB ("sErVeR:"), strB ("test"),
   strB ("UpGrAdE:"), strB ("h2c")]

/-- C1: for every received upgrade response whose status line carries a
status code token, `get_upgrade_response` returns ok iff that token (the
second whitespace-separated token of the header block) is exactly `101`,
and returns the no-exception failure result for any other token, whatever
the remaining header tokens are (so ordering and casing of the other
headers are irrelevant). -/
theorem c1_upgrade_ok_iff_101 (steps : List RecvStep)
    (data headers rest t0 code : List Nat) (ts : List (List Nat))
    (hacc : guAccum steps [] = GUAcc.found data)
    (hsplit : splitOnceAt crlfcrlf data = some (headers, rest))
    (htok : pySplitWs headers = t0 :: code :: ts) :
    (get_upgrade_response steps = GUResult.success rest ↔ code = code101) ∧
    (code ≠ code101 → get_upgrade_response steps = GUResult.failure) := by
  have h1 : get_upgrade_response steps = processResponse data := by
    unfold get_upgrade_response
    rw [hacc]
  have h2 : processResponse data
      = if code = code101 then GUResult.success rest else GUResult.failure := by
    simp only [processResponse, hsplit, htok, List.get?]
  constructor
  · rw [h1, h2]
    by_cases hc : code = code101
    · simp [hc]
    · simp [hc]
  · intro hc
    rw [h1, h2, if_neg hc]

/-- C1 witness: on `c1data`, delivered in one chunk, the upgrade succeeds
and returns exactly the leftover bytes. -/
theorem c1_upgrade_ok_iff_101_witness :
    get_upgrade_response [RecvStep.chunk c1data] = GUResult.success c1rest := by
  exact (c1_upgrade_ok_iff_101 [RecvStep.chunk c1data] c1data c1headers c1rest
    (strB ("HTTP/1.1")) code101 c1ts (by decide) (by decide) (by decide)).1.mpr rfl

/-- The read loop never terminates against a peer that has closed the
connection: every `recv` returns the empty byte string, so however many
reads are granted, the loop is still running. -/
def loopsForeverOnEmptyReads : Prop :=
  ∀ n : Nat, guAccum (List.replicate n (RecvStep.chunk [])) [] = GUAcc.ranOut

/-- C6 counterexample: against a peer that closes the connection early
(`recv` returns the empty byte string forever, raising no timeout),
the accumulation loop of `get_upgrade_response` never terminates, for any
number of reads — refuting the claim that it terminates once the timeout
elapses for every peer that never sends the end-of-headers marker. -/
theorem c6_counterexample : loopsForeverOnEmptyReads := by
  intro n
  induction n with
  | zero => rfl
  | succ k ih =>
    rw [List.replicate_succ]
    show guAccum (RecvStep.chunk [] :: List.replicate k (RecvStep.chunk [])) [] = GUAcc.ranOut
    rw [guAccum]
    simpa using ih

/-- C6 (amended): against a peer that accepts the connection but never
writes any bytes, the first read raises the socket timeout, so
`get_upgrade_response` terminates at once with the propagated timeout
failure, whatever would have followed. -/
theorem c6_amended_timeoutFails (steps : List RecvStep) :
    get_upgrade_response (RecvStep.tmo :: steps) = GUResult.timedOut := rfl

/-- The 18 bytes the fixed base64 `HTTP2-Settings` value decodes to. -/
def settingsPayload : List Nat :=
  [0, 3, 0, 0, 0, 100, 0, 4, 64, 0, 0, 0, 0, 2, 0, 0, 0, 0]

/-- The settings entries encoded in `settingsPayload`:
MAX_CONCURRENT_STREAMS (3) = 100, INITIAL_WINDOW_SIZE (4) = 2^30,
ENABLE_PUSH (2) = 0. -/
def settingsEntries : List (Nat × Nat) :=
  [(3, 100), (4, 1073741824), (2, 0)]

/-- C8 counterexample: the hard-coded base64 value decodes to an 18-byte
SETTINGS payload holding three entries, so the payload is not empty; and it
sets ENABLE_PUSH (identifier 2) to 0 although the protocol-default value of
that parameter is 1, so it is not a default payload either. -/
theorem c8_counterexample :
    b64Decode http2SettingsB64 = some settingsPayload ∧
    settingsPayload ≠ [] ∧
    parseSettings settingsPayload = some settingsEntries ∧
    (2, 0) ∈ settingsEntries ∧
    rfc7540Default 2 = some 1 := by
  refine ⟨by decide, by decide, by decide, by decide, by decide⟩

/-- C8 (amended): the fixed base64 `HTTP2-Settings` value decodes to the
payload of a SETTINGS frame carrying MAX_CONCURRENT_STREAMS = 100,
INITIAL_WINDOW_SIZE = 2^30 and ENABLE_PUSH = 0. -/
theorem c8_amended_settingsDecode :
    b64Decode http2SettingsB64 = some settingsPayload ∧
    parseSettings settingsPayload = some settingsEntries := by
  refine ⟨by decide, by decide⟩

/-- C2 counterexample: with `upgradeOnly` set, the built request still
contains the full `HTTP2-Settings` header line — the flag only drops the
`, HTTP2-Settings` token from the `Connection` header value — refuting the
claim that the header itself is omitted. -/
theorem c2_counterexample :
    containsSeq (strB ("HTTP2-Settings: AAMAAABkAARAAAAAAAIAAAAA\r\n"))
        (send_initial_request (strB ("/")) (strB ("example.com")) true) = true ∧
    containsSeq (strB ("Connection: Upgrade\r\n"))
        (send_initial_request (strB ("/")) (strB ("example.com")) true) = true ∧
    containsSeq (strB (", HTTP2-Settings"))
        (send_initial_request (strB ("/")) (strB ("example.com")) true) = false := by
  refine ⟨by decide, by decide, by decide⟩

/-- The header lines of the upgrade request as the amended spec describes
them: request line, `Host`, `Accept`, `Accept-Language`, `Upgrade: h2c`,
the fixed `HTTP2-Settings` value (always present), and a `Connection` value
of `Upgrade` plus `, HTTP2-Settings` unless `upgradeOnly` is set. -/
def upgradeRequestLines (path host : List Nat) (upgradeOnly : Bool) : List (List Nat) :=
  [strB ("GET ") ++ path ++ strB (" HTTP/1.1"),
   strB ("Host: ") ++ host,
   strB ("Accept: */*"),
   strB ("Accept-Language: en"),
   strB ("Upgrade: h2c"),
   strB ("HTTP2-Settings: ") ++ http2SettingsB64,
   strB ("Connection: Upgrade") ++ (if upgradeOnly then [] else strB (", HTTP2-Settings"))]

/-- The amended wire format: every line terminated by CRLF, then the empty
line. -/
def upgradeRequestSpec (path host : List Nat) (upgradeOnly : Bool) : List Nat :=
  ((upgradeRequestLines path host upgradeOnly).map (fun l => l ++ crlf)).flatten ++ crlf

/-- C2 (amended): for every target, `send_initial_request` writes exactly
the request line and headers of the amended wire format — with the
`HTTP2-Settings` header always present, and `upgradeOnly` only dropping
`, HTTP2-Settings` from the `Connection` value — terminated by an empty
line, with an empty path defaulted to `/`. -/
theorem c2_amended_wireFormat (path host : List Nat) (upgradeOnly : Bool) :
    send_initial_request path host upgradeOnly
      = upgradeRequestSpec (if path.isEmpty then strB ("/") else path) host upgradeOnly := by
  simp [send_initial_request, upgradeRequestSpec, upgradeRequestLines, List.append_assoc]

theorem gdLoop_noStop_timeout (pre : List (List Nat × List H2Event)) :
    ∀ (evs : List H2Event) (feds : List (List Nat)) (rest : List GDStep),
      (∀ k, k < pre.length →
        lastIsEnded (evs ++ ((pre.take (k + 1)).map Prod.snd).flatten) = false) →
      gdLoop (pre.map some ++ none :: rest) evs feds
        = GDResult.done (evs ++ (pre.map Prod.snd).flatten)
            (feds ++ pre.map Prod.fst) false rest := by
  induction pre with
  | nil =>
    intro evs feds rest _
    simp [gdLoop]
  | cons p ps ih =>
    intro evs feds rest hno
    obtain ⟨c, e⟩ := p
    have h0 : lastIsEnded (evs ++ e) = false := by
      have h := hno 0 (by simp)
      simpa using h
    show gdLoop (some (c, e) :: (ps.map some ++ none :: rest)) evs feds = _
    rw [gdLoop]
    simp only [h0, Bool.false_eq_true, if_false]
    rw [ih (evs ++ e) (feds ++ [c]) rest ?_]
    · simp [List.append_assoc]
    · intro k hk
      have h := hno (k + 1) (by simpa using Nat.succ_lt_succ hk)
      simpa [List.append_assoc] using h

theorem gdLoop_noStop_ended (pre : List (List Nat × List H2Event)) :
    ∀ (evs : List H2Event) (feds : List (List Nat)) (rest : List GDStep)
      (c : List Nat) (e : List H2Event),
      (∀ k, k < pre.length →
        lastIsEnded (evs ++ ((pre.take (k + 1)).map Prod.snd).flatten) = false) →
      lastIsEnded (evs ++ (pre.map Prod.snd).flatten ++ e) = true →
      gdLoop (pre.map some ++ some (c, e) :: rest) evs feds
        = GDResult.done (evs ++ (pre.map Prod.snd).flatten ++ e)
            (feds ++ pre.map Prod.fst ++ [c]) true rest := by
  induction pre with
  | nil =>
    intro evs feds rest c e _ hstop
    show gdLoop (some (c, e) :: rest) evs feds = _
    rw [gdLoop]
    have hstop' : lastIsEnded (evs ++ e) = true := by simpa using hstop
    simp [hstop']
  | cons p ps ih =>
    intro evs feds rest c e hno hstop
    obtain ⟨c0, e0⟩ := p
    have h0 : lastIsEnded (evs ++ e0) = false := by
      have h := hno 0 (by simp)
      simpa using h
    show gdLoop (some (c0, e0) :: (ps.map some ++ some (c, e) :: rest)) evs feds = _
    rw [gdLoop]
    simp only [h0, Bool.false_eq_true, if_false]
    rw [ih (evs ++ e0) (feds ++ [c0]) rest c e ?_ ?_]
    · simp [List.append_assoc]
    · intro k hk
      have h := hno (k + 1) (by simpa using Nat.succ_lt_succ hk)
      simpa [List.append_assoc] using h
    · simpa [List.append_assoc] using hstop

/-- C4: the event-drain loop of `getData` stops reading as soon as the most
recently decoded event is `StreamEnded`: when the reads before the stopping
one never left a `StreamEnded` event last, and the read that delivers `e`
makes the accumulated list end in `StreamEnded`, the loop returns the
accumulated events at once, with the remaining reads `rest` never performed;
and when no accumulated prefix ends in `StreamEnded`, it returns the
accumulated events exactly when a read times out. -/
theorem c4_drainStopPolicy (pre : List (List Nat × List H2Event)) (rest : List GDStep)
    (c : List Nat) (e : List H2Event)
    (hno : ∀ k : Fin pre.length,
      lastIsEnded (((pre.take (k.val + 1)).map Prod.snd).flatten) = false) :
    (lastIsEnded ((pre.map Prod.snd).flatten ++ e) = true →
      getData (pre.map some ++ some (c, e) :: rest)
        = GDResult.done ((pre.map Prod.snd).flatten ++ e)
            (pre.map Prod.fst ++ [c]) true rest) ∧
    getData (pre.map some ++ none :: rest)
      = GDResult.done ((pre.map Prod.snd).flatten) (pre.map Prod.fst) false rest := by
  have hno' : ∀ k, k < pre.length →
      lastIsEnded ([] ++ ((pre.take (k + 1)).map Prod.snd).flatten) = false := by
    intro k hk
    simpa using hno ⟨k, hk⟩
  constructor
  · intro hstop
    have h := gdLoop_noStop_ended pre [] [] rest c e hno' (by simpa using hstop)
    simpa [getData] using h
  · have h := gdLoop_noStop_timeout pre [] [] rest hno'
    simpa [getData] using h

/-- C4 witness: a first read delivering a DATA event, a second read
delivering `StreamEnded`: the loop stops there, returning both events and
leaving the rest of the read budget untouched; and with a timing-out second
read instead, it returns the single accumulated event. -/
theorem c4_drainStopPolicy_witness :
    getData [some ([7], [H2Event.dataReceived [104] 1]),
             some ([8], [H2Event.streamEnded 1]), none]
      = GDResult.done [H2Event.dataReceived [104] 1, H2Event.streamEnded 1]
          [[7], [8]] true [none] ∧
    getData [some ([7], [H2Event.dataReceived [104] 1]), none]
      = GDResult.done [H2Event.dataReceived [104] 1] [[7]] false [] := by
  exact ⟨(c4_drainStopPolicy [([7], [H2Event.dataReceived [104] 1])] [none]
            [8] [H2Event.streamEnded 1] (by decide)).1 (by decide),
         (c4_drainStopPolicy [([7], [H2Event.dataReceived [104] 1])] []
            [8] [H2Event.streamEnded 1] (by decide)).2⟩

theorem handle_events_append_reset (pre : List H2Event) (code sid : Nat)
    (post : List H2Event) (v : Bool)
    (h : ∀ e ∈ pre, isReset e = false) :
    handle_events (pre ++ H2Event.streamReset code sid :: post) v
      = ((handle_events pre v).1, some (("stream reset: ") ++ Nat.repr code)) := by
  induction pre with
  | nil => simp [handle_events]
  | cons e es ih =>
    have hes : ∀ x ∈ es, isReset x = false := fun x hx => h x (List.mem_cons_of_mem _ hx)
    have he : isReset e = false := h e (List.mem_cons_self _ _)
    cases e with
    | streamReset c2 s2 => simp [isReset] at he
    | responseReceived hs s2 =>
      simp only [List.cons_append, handle_events, List.append_eq, ih hes]
    | dataReceived d s2 =>
      simp only [List.cons_append, handle_events, List.append_eq, ih hes]
    | streamEnded s2 =>
      simp only [List.cons_append, handle_events, List.append_eq, ih hes]
    | other t2 =>
      simp only [List.cons_append, handle_events, List.append_eq, ih hes]

/-- C5: whenever a `StreamReset` event is among the events of an exchange,
`handle_events` fails with the error `stream reset: <errorCode>` carrying
the code of the first reset, having printed only the outputs of the events
before it; the events after the reset are never processed, so the result
does not depend on them (in particular no further event is waited on). -/
theorem c5_streamResetFails (pre post : List H2Event) (code sid : Nat) (v : Bool)
    (h : ∀ e ∈ pre, isReset e = false) :
    handle_events (pre ++ H2Event.streamReset code sid :: post) v
        = ((handle_events pre v).1, some (("stream reset: ") ++ Nat.repr code)) ∧
    handle_events (pre ++ H2Event.streamReset code sid :: post) v
        = handle_events (pre ++ [H2Event.streamReset code sid]) v := by
  have h1 := handle_events_append_reset pre code sid post v h
  have h2 := handle_events_append_reset pre code sid [] v h
  exact ⟨h1, h1.trans h2.symm⟩

/-- C5 witness: a response-headers event, then a reset with error code 8,
then a data event: the handler reports the headers of the first event, then
fails with `stream reset: 8`, and the trailing data event is not printed. -/
theorem c5_streamResetFails_witness :
    handle_events [H2Event.responseReceived [([58, 115], [50, 48, 48])] 1,
                   H2Event.streamReset 8 1,
                   H2Event.dataReceived [104, 105] 1] false
      = ([Output.headerOut [58, 115] [50, 48, 48], Output.blank],
         some ("stream reset: 8")) := by
  exact (c5_streamResetFails [H2Event.responseReceived [([58, 115], [50, 48, 48])] 1]
    [H2Event.dataReceived [104, 105] 1] 8 1 false (by decide)).1

/-- C3: the leftover remainder returned by `get_upgrade_response` is exactly
the byte string following the first `\x0d\x0a\x0d\x0a` of the response (the
marker occurs at no earlier position), and it is exactly the first chunk
fed to the HTTP/2 frame decoder, before any chunk obtained from a further
socket read — none of its bytes lost, none duplicated. -/
theorem c3_leftoverFedFirst (data headers rest : List Nat)
    (hsplit : splitOnceAt crlfcrlf data = some (headers, rest)) :
    (data = headers ++ crlfcrlf ++ rest ∧
      ∀ p : Fin headers.length, startsWith crlfcrlf (data.drop p.val) = false) ∧
    (∀ r, processResponse data = GUResult.success r → r = rest) ∧
    (∀ (extraEvents : List H2Event) (steps : List GDStep) (v : Bool)
        (evs : List H2Event) (feds : List (List Nat)) (byEnd : Bool)
        (rem : List GDStep),
      getData steps = GDResult.done evs feds byEnd rem →
      mainAfterUpgrade rest extraEvents steps v
        = some (rest :: feds, evs, handle_events evs v)) := by
  refine ⟨⟨splitOnceAt_append _ _ _ _ hsplit,
           fun p => splitOnceAt_firstOcc _ _ _ _ hsplit p.val p.isLt⟩, ?_, ?_⟩
  · intro r hr
    simp only [processResponse, hsplit] at hr
    cases hget : (pySplitWs headers).get? 1 with
    | none =>
      simp only [hget] at hr
      exact absurd hr (by simp)
    | some code =>
      simp only [hget] at hr
      by_cases hc : code = code101
      · rw [if_pos hc] at hr
        injection hr with hre
        exact hre.symm
      · rw [if_neg hc] at hr
        exact absurd hr (by simp)
  · intro extraEvents steps v evs feds byEnd rem hg
    unfold mainAfterUpgrade
    rw [hg]

/-- C3 witness: on the concrete response `c1data`, the remainder is the
bytes after the blank line, and the exploit path feeds exactly that chunk
to the decoder first (here the drain loop then times out at once). -/
theorem c3_leftoverFedFirst_witness :
    mainAfterUpgrade c1rest [] [(none : GDStep)] false
      = some ([c1rest], [], ([], none)) := by
  exact (c3_leftoverFedFirst c1data c1headers c1rest (by decide)).2.2
    [] [(none : GDStep)] false [] [] false [] rfl

/-- C7 counterexample: on the negotiation-failure exit path, `main` runs
`sys.exit(1)` directly: no shutdown and no close is performed, refuting the
claim that the connection is shut down and closed exactly once on every
exit path of the single-proxy operations. -/
theorem c7_counterexample :
    mainCleanup false false false = [] ∧
    (mainCleanup false false false).count Act.close ≠ 1 := by
  refine ⟨rfl, by decide⟩

/-- C7 (amended): only the normal-completion path of `main` shuts the
connection down and closes it, exactly once; the negotiation-failure,
test-mode-success and in-exchange-exception paths of `main` exit without
either action; `scan`, by contrast, shuts down and closes exactly once on
every path on which a connection was established (success, failed upgrade,
or exception), and touches nothing when no connection exists. -/
theorem c7_amended_cleanup (negOk test exchangeRaises validProto connectOk : Bool) :
    ((mainCleanup negOk test exchangeRaises).count Act.close
        = if negOk && !test && !exchangeRaises then 1 else 0) ∧
    ((mainCleanup negOk test exchangeRaises).count Act.shutdown
        = if negOk && !test && !exchangeRaises then 1 else 0) ∧
    ((scanCleanup validProto connectOk).count Act.close
        = if validProto && connectOk then 1 else 0) ∧
    ((scanCleanup validProto connectOk).count Act.shutdown
        = if validProto && connectOk then 1 else 0) ∧
    (scanCleanup validProto connectOk
        = if validProto && connectOk then [Act.shutdown, Act.close] else []) := by
  cases negOk <;> cases test <;> cases exchangeRaises <;>
    cases validProto <;> cases connectOk <;> decide

theorem openStreams_fst (n : Nat) :
    ∀ s : H2Session,
      (openStreams s n).1 = (List.range n).map (fun i => s.nextStreamId + 2 * i) := by
  induction n with
  | zero => intro s; rfl
  | succ k ih =>
    intro s
    show s.nextStreamId :: (openStreams ⟨s.nextStreamId + 2⟩ k).1 = _
    rw [ih ⟨s.nextStreamId + 2⟩, List.range_succ_eq_map]
    have hfe : (fun i => H2Session.nextStreamId ⟨s.nextStreamId + 2⟩ + 2 * i)
        = (fun i => s.nextStreamId + 2 * (i + 1)) := by
      funext i
      show s.nextStreamId + 2 + 2 * i = s.nextStreamId + 2 * (i + 1)
      omega
    rw [hfe]
    simp [List.map_map, Function.comp, Nat.mul_comm]

/-- C9: within one session, N sequential stream openings (one per smuggled
request dispatched) allocate the IDs `first, first + 2, ...`: starting from
the session's first client-initiated ID, they are strictly increasing, all
odd, and no ID is ever reused. -/
theorem c9_streamIdMonotone (s : H2Session) (n : Nat)
    (h : s.nextStreamId % 2 = 1) :
    ((openStreams s n).1 = (List.range n).map (fun i => s.nextStreamId + 2 * i)) ∧
    List.Pairwise (· < ·) (openStreams s n).1 ∧
    (∀ i ∈ (openStreams s n).1, i % 2 = 1) ∧
    (openStreams s n).1.Nodup := by
  have hfst := openStreams_fst n s
  have hpw : List.Pairwise (· < ·) (openStreams s n).1 := by
    rw [hfst]
    exact (List.pairwise_lt_range n).map _ (fun a b hab => by omega)
  refine ⟨hfst, hpw, ?_, hpw.imp (fun hab => Nat.ne_of_lt hab)⟩
  intro i hi
  rw [hfst] at hi
  rcases List.mem_map.mp hi with ⟨j, _, rfl⟩
  omega

/-- C9 witness: starting from stream ID 3, three sequential openings
allocate 3, 5, 7. -/
theorem c9_streamIdMonotone_witness :
    (openStreams (H2Session.mk 3) 3).1
      = (List.range 3).map (fun i => 3 + 2 * i) := by
  exact (c9_streamIdMonotone (H2Session.mk 3) 3 (by decide)).1

/-- C10: in exploit mode, the events decoded from the leftover bytes of the
upgrade response are never delivered to the event handler: the post-upgrade
phase of `main` gives the same result whatever those events were (the
binding of line 154 is overwritten by line 156 before use), and when the
whole response was contained in the leftover bytes — so that the subsequent
drain obtains no events before timing out — nothing at all is reported. -/
theorem c10_leftoverEventsDropped :
    (∀ (rest : List Nat) (e1 e2 : List H2Event) (steps : List GDStep) (v : Bool),
      mainAfterUpgrade rest e1 steps v = mainAfterUpgrade rest e2 steps v) ∧
    (∀ (rest : List Nat) (extraEvents : List H2Event) (v : Bool),
      mainAfterUpgrade rest extraEvents [(none : GDStep)] v
        = some ([rest], [], ([], none))) :=
  ⟨fun _ _ _ _ _ => rfl, fun _ _ _ => rfl⟩

end H2CS
